import Mathlib

/-!
Verification of the ARIV inference routing and streaming gateway.

This file is a shallow embedding, in Lean 4, of the components of the
repository that the specification's testable properties talk about:

* `src/ariv/orchestrator/router.py` — `Router.choose_model`, `ModelManager`
  (LRU resident set), `_classify_task`, `_detect_indic`,
  `_estimate_gpu_layers`;
* `src/ariv/models/__init__.py` — `ModelSpec` and the registry lookups;
* `src/ariv/runner/llama_cli.py` — `LlamaCLI.stream_chat` (mock mode,
  pre-flight, stdout line parsing, stderr tail and failure message);
* `src/ariv/runner/app.py` — the `/v1/chat` streaming body (metadata
  envelope first, then tokens);
* `src/benchmarks/run_bench.py` — `_percentile` and the latency
  aggregates of `run_benchmark`.

Embedding conventions:

* Python `int` is modelled as `Int`; Python float arithmetic is modelled
  exactly over `ℚ` (the few float expressions involved — `0.95 · n`,
  `40 · ratio`, duration statistics — are far from any rounding boundary
  the claims exercise, and the source values are decimal literals).
* Python strings are Lean `String` (a list of unicode code points, the
  same data model as CPython `str`); `bytes` values are modelled by the
  string they decode to, with `String.utf8ByteSize` giving the byte count.
* The asynchronous generator `stream_chat` is modelled by the pair of the
  list of tokens it yields and its terminal outcome; the child process is
  modelled by the observable triple (stdout lines, collected stderr,
  exit code).
* `json.loads` (an external stdlib collaborator) is abstracted as a parse
  oracle `String → Option JValue`; `json.dumps` for the fixed metadata
  envelope shape and CPython `str()` are modelled concretely below.
* Registries are association lists keyed by model name, as produced by
  `ModelRegistry.from_yaml` (which sets each spec's `name` to its key;
  `RegWF` records that well-formedness).
-/

/-! ## Generic helpers -/

/-- `concatMap f l` appends the chunks `f a` for `a ∈ l` in order. -/
def concatMap (f : α → List β) : List α → List β
  | [] => []
  | a :: l => f a ++ concatMap f l

/-- Concatenation of a list of strings (the byte stream a consumer sees). -/
def concatStrs : List String → String
  | [] => ""
  | s :: l => s ++ concatStrs l

/-- Insert into a list sorted by `le` (stable: a new element goes before
the equal elements already present, matching CPython `sorted`). -/
def insSorted (le : α → α → Bool) (a : α) : List α → List α
  | [] => [a]
  | b :: l => if le a b then a :: b :: l else b :: insSorted le a l

/-- Insertion sort by `le`.  For the total orders used here (`ℚ`, `String`
with distinct keys) it computes the same list as CPython `sorted`. -/
def insSort (le : α → α → Bool) : List α → List α
  | [] => []
  | a :: l => insSorted le a (insSort le l)

/-- The whitespace class CPython `str.split()` and `str.strip()` use,
restricted to the ASCII range (the inputs the claims exercise). -/
def isPyWs (c : Char) : Bool :=
  c == ' ' || c == '\t' || c == '\n' || c == '\x0d' || c == '\x0b' || c == '\x0c'

/-- CPython `str.strip()`: drop leading and trailing whitespace. -/
def pyStrip (s : String) : String :=
  String.mk (((s.data.dropWhile isPyWs).reverse.dropWhile isPyWs).reverse)

/-- CPython `str.split()` with no argument: maximal runs of
non-whitespace characters, empties discarded. -/
def pySplit (s : String) : List String :=
  ((s.data.splitOnP isPyWs).map String.mk).filter (fun w => w ≠ "")

/-- `pre` is a leading piece of `s` (CPython `str.startswith`). -/
def strStarts (s pre : String) : Bool :=
  pre.data.isPrefixOf s.data

/-- Drop the first `n` characters (CPython `s[n:]`). -/
def strDrop (s : String) (n : Nat) : String :=
  String.mk (s.data.drop n)

/-- Keep the last `n` characters (CPython `s[-n:]` for `0 < n ≤ len(s)`). -/
def strTakeRight (s : String) (n : Nat) : String :=
  String.mk (s.data.drop (s.data.length - n))

/-- Substring containment (CPython `pat in s`), as a proposition. -/
def strInfix (pat s : String) : Prop :=
  pat.data <:+: s.data

instance (pat s : String) : Decidable (strInfix pat s) :=
  List.decidableInfix pat.data s.data

/-- Substring containment as a boolean, for use inside embedded code. -/
def strInfixB (pat s : String) : Bool :=
  decide (strInfix pat s)

/-- ASCII lower-casing (CPython `str.lower()` on the ASCII inputs used here). -/
def pyLower (s : String) : String :=
  String.mk (s.data.map Char.toLower)

/-- Lexicographic comparison of code-point lists (the CPython `str` order). -/
def charListLe : List Char → List Char → Bool
  | [], _ => true
  | _ :: _, [] => false
  | c :: cs, d :: ds =>
    if c.val < d.val then true
    else if d.val < c.val then false
    else charListLe cs ds

/-- CPython `str` comparison, for `sorted` over model names. -/
def strLeB (a b : String) : Bool := charListLe a.data b.data

/-- CPython `x or y` on an optional string: `None` and `""` are falsy. -/
def pyOrStr (x : Option String) (y : String) : String :=
  match x with
  | some s => if s = "" then y else s
  | none => y

/-- Decimal digit character (`n < 10`), spelled out so that facts about
its output are provable by case analysis. -/
def digitChar10 : Nat → Char
  | 0 => '0'
  | 1 => '1'
  | 2 => '2'
  | 3 => '3'
  | 4 => '4'
  | 5 => '5'
  | 6 => '6'
  | 7 => '7'
  | 8 => '8'
  | _ => '9'

/-- Decimal digits of a natural number, most significant first; the first
argument is fuel (`n + 1` always suffices since `n` has at most `n + 1` digits). -/
def natDigitsAux : Nat → Nat → List Char
  | 0, _ => []
  | fuel + 1, n =>
    if n < 10 then [digitChar10 n]
    else natDigitsAux fuel (n / 10) ++ [digitChar10 (n % 10)]

/-- Decimal rendering of a natural number (CPython `str(n)` for `n ≥ 0`). -/
def natRepr (n : Nat) : String :=
  String.mk (natDigitsAux (n + 1) n)

/-- Decimal rendering of an integer (CPython `str(n)`). -/
def intRepr (n : Int) : String :=
  if n < 0 then "-" ++ natRepr n.natAbs else natRepr n.natAbs

/-- CPython `str(b)` for a boolean. -/
def boolRepr (b : Bool) : String :=
  if b then "True" else "False"

/-! ## Model registry (`src/ariv/models/__init__.py`) -/

/-- `ModelSpec` — one registry entry (dataclass `ModelSpec`). -/
structure ModelSpec where
  name : String
  type : String
  family : String
  quant : String
  vram_mb : Int
  task : String
  url : String
  license : String
  sha256 : Option String
  preferred_langs : List String
  fallback : List String
  local_path : Option String
deriving DecidableEq

/-- A registry is the name-keyed mapping `ModelRegistry._models`,
as an association list in document order. -/
abbrev ModelRegistry := List (String × ModelSpec)

/-- `ModelRegistry.get`, partial lookup (`self._models[name]`, `None`
standing for the `KeyError` case). -/
def regGet (reg : ModelRegistry) (n : String) : Option ModelSpec :=
  match reg with
  | [] => none
  | (k, s) :: rest => if k = n then some s else regGet rest n

/-- `ModelRegistry.has`. -/
def regHas (reg : ModelRegistry) (n : String) : Bool :=
  (regGet reg n).isSome

/-- Well-formedness guaranteed by `ModelRegistry.from_yaml`: every entry's
`name` field equals its key. -/
def RegWF (reg : ModelRegistry) : Prop :=
  ∀ p ∈ reg, (Prod.snd p).name = Prod.fst p

instance (reg : ModelRegistry) : Decidable (RegWF reg) :=
  List.decidableBAll _ reg

/-! ## Router (`src/ariv/orchestrator/router.py`) -/

/-- `HardwareProfile` dataclass. -/
structure HardwareProfile where
  gpu : Bool
  vram_mb : Int
  cpu_mem_mb : Int
  device_name : String
deriving DecidableEq

/-- `RouteDecision` dataclass. -/
structure RouteDecision where
  model : ModelSpec
  fallback : Option String
  num_gpu_layers : Int
  estimated_vram_mb : Int
  reason : String
deriving DecidableEq

/-- `INDIC_LANGS`. -/
def INDIC_LANGS : List String :=
  ["hi", "ta", "te", "kn", "bn", "ml", "gu", "pa", "mr", "ur"]

/-- `CODE_HINTS`. -/
def CODE_HINTS : List String :=
  ["code", "python", "java", "sql", "debug", "logic", "reasoning"]

/-- `_classify_task`:  a code hint as a substring of the lowered task hint,
or a code-shape marker in the lowered text, yields `"code_logic"`. -/
def classify_task (task_hint : Option String) (text : String) : String :=
  let hint := pyLower (task_hint.getD "")
  if CODE_HINTS.any (fun tok => strInfixB tok hint) then "code_logic"
  else if ["def ", "class ", "```", "import "].any
      (fun tok => strInfixB tok (pyLower text)) then "code_logic"
  else "indic"

/-- `_detect_indic`: preferred language in `INDIC_LANGS`, or any code point
in the `U+0900`–`U+0DFF` block. -/
def detect_indic (preferred_lang : Option String) (text : String) : Bool :=
  (match preferred_lang with
   | some lang => lang ≠ "" && INDIC_LANGS.contains (pyLower lang)
   | none => false) ||
  text.data.any (fun c => 0x900 ≤ c.val && c.val ≤ 0xdff)

/-- `_estimate_gpu_layers`; the float arithmetic of the last branch is
modelled exactly over `ℚ` (`int` truncation is `Rat.floor`, the operand
being positive there). -/
def estimate_gpu_layers (vram_mb : Int) (model_vram_mb : Int) : Int :=
  if vram_mb ≤ 0 then 0
  else if vram_mb ≥ model_vram_mb then 999
  else
    let r : ℚ := max ((vram_mb : ℚ) / (max model_vram_mb 1 : Int)) (mkRat 1 20)
    max (40 * r).floor 1

/-- The primary model name chosen by task and language classification
(`Router.choose_model`, first half). -/
def primaryName (preferred_lang task_hint : Option String) (text : String) : String :=
  if classify_task task_hint text = "code_logic" then "qwen-2.5-3b-q4_k_m"
  else if detect_indic preferred_lang text then "sarvam-2b-q4_k_m"
  else "llama-3.2-1b-q4_k_m"

/-- The fallback walk of `Router.choose_model`: first registered candidate
whose `vram_mb` fits; an unregistered or unfit candidate is skipped. -/
def walkFallback (reg : ModelRegistry) (hw_vram : Int) (sel : ModelSpec) :
    List String → ModelSpec × Option String
  | [] => (sel, none)
  | c :: rest =>
    match regGet reg c with
    | none => walkFallback reg hw_vram sel rest
    | some alt =>
      if alt.vram_mb ≤ hw_vram then (alt, some sel.name)
      else walkFallback reg hw_vram sel rest

/-- The VRAM downgrade step: guarded by Python truthiness of
`hardware.vram_mb` (non-zero) and the overshoot test. -/
def downgradePhase (reg : ModelRegistry) (hw_vram : Int) (sel : ModelSpec) :
    ModelSpec × Option String :=
  if hw_vram ≠ 0 ∧ sel.vram_mb > hw_vram then
    walkFallback reg hw_vram sel sel.fallback
  else (sel, none)

/-- The safety-net step: if the chosen model still exceeds `hw_vram`,
set `fallback = fallback or selected.name` and, when registered, switch to
`"llama-3.2-1b-q4_k_m"`. -/
def safetyPhase (reg : ModelRegistry) (hw_vram : Int) (p : ModelSpec × Option String) :
    ModelSpec × Option String :=
  if hw_vram < p.1.vram_mb then
    let fb := some (pyOrStr p.2 p.1.name)
    match regGet reg "llama-3.2-1b-q4_k_m" with
    | some safety => (safety, fb)
    | none => (p.1, fb)
  else p

/-- The `reason` diagnostic string of `Router.choose_model`. -/
def reasonStr (task_type : String) (is_indic : Bool) (vram : Int) : String :=
  "task=" ++ task_type ++ ", indic=" ++ boolRepr is_indic ++ ", vram=" ++ intRepr vram

/-- `Router.choose_model`.  `none` models the `KeyError` raised when the
primary contract name is missing from the registry. -/
def choose_model (reg : ModelRegistry) (hardware : HardwareProfile)
    (preferred_lang task_hint : Option String) (text : String) :
    Option RouteDecision :=
  let is_indic := detect_indic preferred_lang text
  let task_type := classify_task task_hint text
  match regGet reg (primaryName preferred_lang task_hint text) with
  | none => none
  | some sel0 =>
    let p := safetyPhase reg hardware.vram_mb (downgradePhase reg hardware.vram_mb sel0)
    some
      { model := p.1
        fallback := p.2
        num_gpu_layers := estimate_gpu_layers hardware.vram_mb p.1.vram_mb
        estimated_vram_mb := p.1.vram_mb
        reason := reasonStr task_type is_indic hardware.vram_mb }

/-! ## Resident model manager (`ModelManager`, `src/ariv/orchestrator/router.py`) -/

/-- `ModelManager` state: `_loaded` is the dict as an association list in
insertion order, `_counter` the monotone access counter. -/
structure ModelManager where
  max_loaded : Nat
  loaded : List (String × Nat)
  counter : Nat
deriving DecidableEq

/-- A fresh `ModelManager(max_loaded)`. -/
def mkManager (max_loaded : Nat) : ModelManager :=
  { max_loaded := max_loaded, loaded := [], counter := 0 }

/-- Dict assignment `self._loaded[name] = counter`: update in place if the
key is present (dicts keep insertion order), else append. -/
def dictInsert (k : String) (v : Nat) : List (String × Nat) → List (String × Nat)
  | [] => [(k, v)]
  | p :: rest => if p.1 = k then (k, v) :: rest else p :: dictInsert k v rest

/-- `min(self._loaded, key=self._loaded.get)`: entry with the least
counter, the earliest such entry on (impossible) ties. -/
def findMinEntry (e : String × Nat) : List (String × Nat) → String × Nat
  | [] => e
  | p :: rest => findMinEntry (if p.2 < e.2 then p else e) rest

/-- `del self._loaded[name]`: remove the (unique) entry with key `k`. -/
def eraseKey (k : String) : List (String × Nat) → List (String × Nat)
  | [] => []
  | p :: rest => if p.1 = k then rest else p :: eraseKey k rest

/-- The `while len(self._loaded) > self._max_loaded` eviction loop, with
explicit fuel (the list length always suffices: each pass removes one
entry).  Returns the eviction names in order plus the remaining dict. -/
def evictLoop (maxL : Nat) : Nat → List (String × Nat) → List String × List (String × Nat)
  | 0, l => ([], l)
  | fuel + 1, l =>
    if l.length ≤ maxL then ([], l)
    else
      match l with
      | [] => ([], [])
      | e :: rest =>
        let m := findMinEntry e rest
        let r := evictLoop maxL fuel (eraseKey m.1 (e :: rest))
        (m.1 :: r.1, r.2)

/-- `ModelManager.touch`. -/
def touch (m : ModelManager) (model_name : String) : List String × ModelManager :=
  let c := m.counter + 1
  let l := dictInsert model_name c m.loaded
  let r := evictLoop m.max_loaded l.length l
  (r.1, { m with counter := c, loaded := r.2 })

/-- `ModelManager.loaded`: the sorted key list. -/
def loadedList (m : ModelManager) : List String :=
  insSort strLeB (m.loaded.map Prod.fst)

/-- Run a sequence of `touch` calls, keeping only the final state. -/
def runTouches (m : ModelManager) : List String → ModelManager
  | [] => m
  | n :: rest => runTouches (touch m n).2 rest

/-- Run a sequence of `touch` calls, collecting each call's eviction list. -/
def runEvictions (m : ModelManager) : List String → List (List String)
  | [] => []
  | n :: rest =>
    let r := touch m n
    r.1 :: runEvictions r.2 rest

/-- The `ModelManager` state invariant: stored counters never exceed the
running counter, keys are distinct, and the resident set respects the
bound.  It holds for every state reachable from `mkManager`. -/
def MInv (m : ModelManager) : Prop :=
  (∀ p ∈ m.loaded, p.2 ≤ m.counter) ∧
  ((m.loaded.map Prod.fst).Nodup) ∧
  m.loaded.length ≤ m.max_loaded

/-! ## JSON values and CPython coercions (stdlib collaborators of the runner) -/

mutual
/-- A JSON value as produced by `json.loads` (numbers restricted to the
integral fragment; no claim exercises float payload fields). -/
inductive JValue where
  | jnull
  | jbool (b : Bool)
  | jnum (n : Int)
  | jstr (s : String)
  | jarr (xs : JArr)
  | jobj (fs : JObj)

/-- A JSON array. -/
inductive JArr where
  | anil
  | acons (v : JValue) (rest : JArr)

/-- A JSON object, an association list in document order (a parsed dict,
so keys are unique). -/
inductive JObj where
  | onil
  | ocons (k : String) (v : JValue) (rest : JObj)
end

/-- Dict lookup `payload.get(key)`. -/
def jget : JObj → String → Option JValue
  | .onil, _ => none
  | .ocons k v rest, key => if k = key then some v else jget rest key

/-- CPython truthiness of a JSON value. -/
def jtruthy : JValue → Bool
  | .jnull => false
  | .jbool b => b
  | .jnum n => n ≠ 0
  | .jstr s => s ≠ ""
  | .jarr .anil => false
  | .jarr (.acons _ _) => true
  | .jobj .onil => false
  | .jobj (.ocons _ _ _) => true

/-- CPython `x or y` on optional JSON values (`dict.get` results):
`None` and falsy values select `y`. -/
def pyOrJ : Option JValue → Option JValue → Option JValue
  | some v, y => if jtruthy v then some v else y
  | none, y => y

/-- A single quote character, for CPython `repr` of strings. -/
def squote : String := String.mk [Char.ofNat 39]

mutual
/-- CPython `str(v)` of a JSON value (containers render via `repr` of
their members; the string-escaping inside `repr` is elided — no claim
evaluates container coercion). -/
def pyStr : JValue → String
  | .jnull => "None"
  | .jbool b => boolRepr b
  | .jnum n => intRepr n
  | .jstr s => s
  | .jarr xs => "[" ++ pyStrArr xs ++ "]"
  | .jobj fs => "\x7b" ++ pyStrObj fs ++ "\x7d"

/-- CPython `repr(v)` of a JSON value. -/
def pyReprJ : JValue → String
  | .jnull => "None"
  | .jbool b => boolRepr b
  | .jnum n => intRepr n
  | .jstr s => squote ++ s ++ squote
  | .jarr xs => "[" ++ pyStrArr xs ++ "]"
  | .jobj fs => "\x7b" ++ pyStrObj fs ++ "\x7d"

/-- Comma-joined `repr` of array members. -/
def pyStrArr : JArr → String
  | .anil => ""
  | .acons v .anil => pyReprJ v
  | .acons v rest => pyReprJ v ++ ", " ++ pyStrArr rest

/-- Comma-joined `repr(k): repr(v)` of object members. -/
def pyStrObj : JObj → String
  | .onil => ""
  | .ocons k v .onil => squote ++ k ++ squote ++ ": " ++ pyReprJ v
  | .ocons k v rest => squote ++ k ++ squote ++ ": " ++ pyReprJ v ++ ", " ++ pyStrObj rest
end

/-! ## Streaming runner (`src/ariv/runner/llama_cli.py`) -/

/-- The observable behaviour of the spawned child process. -/
structure ChildResult where
  stdout_lines : List String
  stderr : String
  exit_code : Int
deriving DecidableEq

/-- Terminal outcome of a `stream_chat` session. -/
inductive StreamOutcome where
  | ok
  | modelNotFound (msg : String)
  | runtimeFailure (msg : String)
  | attrError
deriving DecidableEq

/-- Mock-mode token list: the first `max_tokens` whitespace-delimited
words of the prompt, each with a trailing space (`f"{token} "`). -/
def mockTokens (prompt : String) (max_tokens : Nat) : List String :=
  ((pySplit prompt).take max_tokens).map (fun w => w ++ " ")

/-- One stdout line of the streaming loop: strip; skip if empty; strip a
leading `data:` frame; try JSON; on parse failure yield the raw stripped
line; on a JSON object yield the first truthy of `token`/`content`/`text`
coerced by `str`; on any other JSON value the source crashes with
`AttributeError` (`payload.get` on a non-dict), modelled as `none`. -/
def processLine (parse : String → Option JValue) (raw : String) : Option (List String) :=
  let line := pyStrip raw
  if line = "" then some []
  else
    let body := if strStarts line "data:" then pyStrip (strDrop line 5) else line
    match parse body with
    | none => some [body]
    | some (.jobj fields) =>
      let tok := pyOrJ (jget fields "token") (pyOrJ (jget fields "content") (jget fields "text"))
      some (match tok with
            | some v => if jtruthy v then [pyStr v] else []
            | none => [])
    | some _ => none

/-- The stdout loop: tokens yielded line by line; a crashing line ends the
iteration, keeping the tokens already yielded. -/
def collectTokens (parse : String → Option JValue) : List String → List String × Bool
  | [] => ([], false)
  | raw :: rest =>
    match processLine parse raw with
    | none => ([], true)
    | some toks =>
      let r := collectTokens parse rest
      (toks ++ r.1, r.2)

/-- The bounded stderr tail: decode (given), strip, and keep the last 1200
characters when longer (`stderr_tail[-1200:]`). -/
def stderrTail (stderr : String) : String :=
  if 1200 < (pyStrip stderr).data.length then strTakeRight (pyStrip stderr) 1200
  else pyStrip stderr

/-- The `RuntimeError` message raised on a non-zero exit. -/
def failMsg (binary model_path : String) (exit_code : Int) (stderr : String) : String :=
  "llama-cli failed: binary=" ++ binary ++ ", model=" ++ model_path ++
  ", exit_code=" ++ intRepr exit_code ++ ", stderr=" ++
  pyOrStr (some (stderrTail stderr)) "<empty>"

/-- `LlamaCLI.stream_chat`: the yielded tokens and the terminal outcome.
`mock` is `os.getenv("ARIV_MOCK_LLAMA", "") == "1"`; `pathExists` is the
`Path.exists` pre-flight oracle; `child` the subprocess behaviour. -/
def stream_chat (parse : String → Option JValue) (binary : String) (mock : Bool)
    (pathExists : String → Bool) (child : ChildResult)
    (model_path prompt : String) (max_tokens : Nat) : List String × StreamOutcome :=
  if mock then (mockTokens prompt max_tokens, .ok)
  else if pathExists model_path = false then
    ([], .modelNotFound ("Model not found: " ++ model_path))
  else
    let r := collectTokens parse child.stdout_lines
    if r.2 then (r.1, .attrError)
    else if child.exit_code ≠ 0 then
      (r.1, .runtimeFailure (failMsg binary model_path child.exit_code child.stderr))
    else (r.1, .ok)

/-! ## Chat frontend streaming body (`src/ariv/runner/app.py`) -/

/-- Hexadecimal digit, spelled out for provability. -/
def hexDigit : Nat → Char
  | 0 => '0'
  | 1 => '1'
  | 2 => '2'
  | 3 => '3'
  | 4 => '4'
  | 5 => '5'
  | 6 => '6'
  | 7 => '7'
  | 8 => '8'
  | 9 => '9'
  | 10 => 'a'
  | 11 => 'b'
  | 12 => 'c'
  | 13 => 'd'
  | 14 => 'e'
  | _ => 'f'

/-- Four-digit hexadecimal rendering (for `\uXXXX` escapes). -/
def hex4 (n : Nat) : List Char :=
  [hexDigit (n / 4096 % 16), hexDigit (n / 256 % 16), hexDigit (n / 16 % 16), hexDigit (n % 16)]

/-- A `\uXXXX` escape. -/
def uEscape (n : Nat) : List Char :=
  '\\' :: 'u' :: hex4 n

/-- `json.dumps` escaping of one character (default `ensure_ascii=True`:
everything outside printable ASCII is escaped, astral code points as a
surrogate pair). -/
def jsonEscapeChar (c : Char) : List Char :=
  if c = '"' then ['\\', '"']
  else if c = '\\' then ['\\', '\\']
  else if c = '\n' then ['\\', 'n']
  else if c = '\t' then ['\\', 't']
  else if c = '\x0d' then ['\\', 'r']
  else if c = '\x08' then ['\\', 'b']
  else if c = '\x0c' then ['\\', 'f']
  else if 0x20 ≤ c.val ∧ c.val ≤ 0x7e then [c]
  else if c.val < 0x10000 then uEscape c.val.toNat
  else uEscape (0xd800 + (c.val.toNat - 0x10000) / 1024) ++
       uEscape (0xdc00 + (c.val.toNat - 0x10000) % 1024)

/-- `json.dumps` of a string. -/
def jstrDump (s : String) : String :=
  "\"" ++ String.mk (concatMap jsonEscapeChar s.data) ++ "\""

/-- Comma-joined `json.dumps` items of a string list. -/
def jstrListDump : List String → String
  | [] => ""
  | [s] => jstrDump s
  | s :: rest => jstrDump s ++ ", " ++ jstrListDump rest

/-- `json.dumps` of a string list. -/
def jarrDump (xs : List String) : String :=
  "[" ++ jstrListDump xs ++ "]"

/-- `json.dumps({"metadata": {...}})` for the metadata envelope built in
the `/v1/chat` handler, with CPython default separators and key order. -/
def metadataLine (model : String) (vram_used : Int) (fallback : String)
    (evicted : List String) (reason : String) : String :=
  "\x7b\"metadata\": \x7b\"model\": " ++ jstrDump model ++
  ", \"vram_used\": " ++ intRepr vram_used ++
  ", \"fallback\": " ++ jstrDump fallback ++
  ", \"evicted\": " ++ jarrDump evicted ++
  ", \"reason\": " ++ jstrDump reason ++ "\x7d\x7d"

/-- The `/v1/chat` `token_stream` body: the newline-terminated metadata
envelope first, then the runner's tokens unchanged (whatever the runner
outcome is). -/
def chatBody (decision : RouteDecision) (evicted : List String)
    (runner : List String × StreamOutcome) : List String × StreamOutcome :=
  ((metadataLine decision.model.name decision.estimated_vram_mb
      (pyOrStr decision.fallback "") evicted decision.reason ++ "\n") :: runner.1,
   runner.2)

/-! ## Benchmark harness (`src/benchmarks/run_bench.py`) -/

/-- CPython `int()` truncation toward zero on an exact rational. -/
def pyInt (q : ℚ) : Int :=
  if 0 ≤ q then q.floor else q.ceil

/-- CPython `sorted` over durations. -/
def sortQ (l : List ℚ) : List ℚ :=
  insSort (fun a b => decide (a ≤ b)) l

/-- `_percentile`: sort, index `int(len(values) * pct)` clamped into range,
`0.0` on an empty list. -/
def percentile (values : List ℚ) (pct : ℚ) : ℚ :=
  if values = [] then 0
  else
    let s := sortQ values
    let i0 := pyInt ((values.length : ℚ) * pct)
    let idx := min (max i0 0) ((values.length : Int) - 1)
    s.getD idx.toNat 0

/-- CPython `statistics.median`: middle element of the sorted list, or the
mean of the two middle elements when the length is even. -/
def medianQ (l : List ℚ) : ℚ :=
  let s := sortQ l
  let n := l.length
  if n % 2 = 1 then s.getD (n / 2) 0
  else (s.getD (n / 2 - 1) 0 + s.getD (n / 2) 0) / 2

/-- CPython `round` ties-to-even on an exact rational. -/
def roundHalfEven (q : ℚ) : Int :=
  let f := q.floor
  let r := q - f
  if r < mkRat 1 2 then f
  else if mkRat 1 2 < r then f + 1
  else if f % 2 = 0 then f else f + 1

/-- CPython `round(q, 4)`. -/
def round4 (q : ℚ) : ℚ :=
  (roundHalfEven (q * 10000) : ℚ) / 10000

/-- `latency_p50=round(median(latencies), 4)` from `run_benchmark`. -/
def latency_p50 (durations : List ℚ) : ℚ :=
  round4 (medianQ durations)

/-- `latency_p95=round(_percentile(latencies, 0.95), 4)` from
`run_benchmark` (`0.95 = 19/20` exactly as a decimal literal). -/
def latency_p95 (durations : List ℚ) : ℚ :=
  round4 (percentile durations (mkRat 19 20))

/-! ## Claim-side definitions and concrete sample data -/

/-- Claim side (spec wording for C3): the first non-empty (truthy) value
among the fields `token`, `content`, `text`, in that order. -/
def firstTruthyField (fields : JObj) : Option JValue :=
  (([jget fields "token", jget fields "content", jget fields "text"].filterMap id).find? jtruthy)

/-- A registry entry with the metadata fields irrelevant to routing left
at their loader defaults. -/
def mkSpec (name : String) (vram : Int) (fb : List String) : ModelSpec :=
  { name := name, type := "gguf", family := "", quant := "q4_k_m", vram_mb := vram
    task := "general", url := "", license := "", sha256 := none
    preferred_langs := [], fallback := fb, local_path := none }

/-- Sample registry with the three contract names (for witnesses). -/
def regSample : ModelRegistry :=
  [("qwen-2.5-3b-q4_k_m", mkSpec "qwen-2.5-3b-q4_k_m" 3600 ["sarvam-2b-q4_k_m", "llama-3.2-1b-q4_k_m"]),
   ("sarvam-2b-q4_k_m", mkSpec "sarvam-2b-q4_k_m" 2200 ["llama-3.2-1b-q4_k_m"]),
   ("llama-3.2-1b-q4_k_m", mkSpec "llama-3.2-1b-q4_k_m" 1500 [])]

/-- Parse oracle for sessions whose stdout lines are not JSON
(`json.loads` fails on every line the witnesses feed it). -/
def jparse0 : String → Option JValue := fun _ => none

/-- Parse oracle fixing the one stdlib fact the counterexample needs:
`json.loads("5")` succeeds with the (non-dict) integer `5`. -/
def jparseNum : String → Option JValue :=
  fun s => if s = "5" then some (.jnum 5) else none

/-- A stderr text of 401 copies of `ह` (U+0939, three UTF-8 bytes each):
1203 bytes long but only 401 characters. -/
def devStderr : String := String.mk (List.replicate 401 'ह')

/-! # Theorems -/

/-! ## Generic lemmas -/

theorem str_data_append (a b : String) : (a ++ b).data = a.data ++ b.data := by
  cases a; cases b; rfl

theorem ratFloor_eq (q : ℚ) : Rat.floor q = ⌊q⌋ :=
  (Rat.floor_def' q).trans Rat.floor_def.symm

theorem insSorted_perm (le : α → α → Bool) (a : α) (l : List α) :
    List.Perm (insSorted le a l) (a :: l) := by
  induction l with
  | nil => exact List.Perm.refl _
  | cons b t ih =>
    by_cases h : le a b
    · simp [insSorted, h]
    · simp only [insSorted, if_neg h]
      exact (ih.cons b).trans (List.Perm.swap a b t)

theorem insSort_perm (le : α → α → Bool) (l : List α) : List.Perm (insSort le l) l := by
  induction l with
  | nil => exact List.Perm.refl _
  | cons a t ih => exact (insSorted_perm le a (insSort le t)).trans (ih.cons a)

theorem length_insSort (le : α → α → Bool) (l : List α) :
    (insSort le l).length = l.length :=
  (insSort_perm le l).length_eq

theorem mem_insSort (le : α → α → Bool) (l : List α) (a : α) :
    a ∈ insSort le l ↔ a ∈ l :=
  (insSort_perm le l).mem_iff

/-! ## Manager lemmas -/

theorem length_loadedList (m : ModelManager) :
    (loadedList m).length = m.loaded.length := by
  unfold loadedList
  rw [length_insSort, List.length_map]

theorem mem_loadedList (m : ModelManager) (n : String) :
    n ∈ loadedList m ↔ n ∈ m.loaded.map Prod.fst :=
  mem_insSort _ _ _

theorem mem_dictInsert_self (k : String) (v : Nat) (l : List (String × Nat)) :
    (k, v) ∈ dictInsert k v l := by
  induction l with
  | nil => exact List.mem_singleton.mpr rfl
  | cons p t ih =>
    by_cases h : p.1 = k
    · simp [dictInsert, h]
    · simp only [dictInsert, if_neg h]
      exact List.mem_cons_of_mem p ih

theorem mem_dictInsert (p : String × Nat) (k : String) (v : Nat)
    (l : List (String × Nat)) (h : p ∈ dictInsert k v l) :
    p = (k, v) ∨ p ∈ l := by
  induction l with
  | nil => simp [dictInsert] at h; exact Or.inl h
  | cons q t ih =>
    by_cases hq : q.1 = k
    · simp only [dictInsert, if_pos hq] at h
      rcases List.mem_cons.mp h with h1 | h1
      · exact Or.inl h1
      · exact Or.inr (List.mem_cons_of_mem q h1)
    · simp only [dictInsert, if_neg hq] at h
      rcases List.mem_cons.mp h with h1 | h1
      · subst h1
        exact Or.inr (List.mem_cons_self p t)
      · rcases ih h1 with h2 | h2
        · exact Or.inl h2
        · exact Or.inr (List.mem_cons_of_mem q h2)

theorem keys_dictInsert (k : String) (v : Nat) (l : List (String × Nat)) :
    (dictInsert k v l).map Prod.fst =
      if k ∈ l.map Prod.fst then l.map Prod.fst else l.map Prod.fst ++ [k] := by
  induction l with
  | nil => simp [dictInsert]
  | cons p t ih =>
    by_cases h : p.1 = k
    · simp [dictInsert, h]
    · have hne : ¬ k = p.1 := fun hk => h hk.symm
      by_cases hm : k ∈ t.map Prod.fst
      · simp [dictInsert, h, ih, hm, hne]
      · simp [dictInsert, h, ih, hm, hne]

theorem length_dictInsert (k : String) (v : Nat) (l : List (String × Nat)) :
    (dictInsert k v l).length =
      if k ∈ l.map Prod.fst then l.length else l.length + 1 := by
  have h := congrArg List.length (keys_dictInsert k v l)
  rw [List.length_map] at h
  rw [h]
  by_cases hm : k ∈ l.map Prod.fst
  · simp [hm]
  · simp [hm]

theorem eraseKey_sublist (k : String) (l : List (String × Nat)) :
    List.Sublist (eraseKey k l) l := by
  induction l with
  | nil => exact List.Sublist.refl _
  | cons p t ih =>
    by_cases h : p.1 = k
    · simp only [eraseKey, if_pos h]
      exact List.sublist_cons_self p t
    · simp only [eraseKey, if_neg h]
      exact ih.cons₂ p

theorem mem_eraseKey (k : String) (l : List (String × Nat)) (p : String × Nat)
    (h : p ∈ eraseKey k l) : p ∈ l :=
  (eraseKey_sublist k l).subset h

theorem mem_eraseKey_of_ne (k : String) (l : List (String × Nat)) (p : String × Nat)
    (hp : p ∈ l) (hne : p.1 ≠ k) : p ∈ eraseKey k l := by
  induction l with
  | nil => cases hp
  | cons q t ih =>
    rcases List.mem_cons.mp hp with h1 | h1
    · subst h1
      simp only [eraseKey, if_neg hne]
      exact List.mem_cons_self p (eraseKey k t)
    · by_cases h : q.1 = k
      · simp only [eraseKey, if_pos h]
        exact h1
      · simp only [eraseKey, if_neg h]
        exact List.mem_cons_of_mem q (ih h1)

theorem length_eraseKey_of_mem (k : String) (l : List (String × Nat))
    (h : k ∈ l.map Prod.fst) : (eraseKey k l).length = l.length - 1 := by
  induction l with
  | nil => cases h
  | cons p t ih =>
    by_cases hp : p.1 = k
    · simp [eraseKey, hp]
    · have ht : k ∈ t.map Prod.fst := by
        rcases List.mem_map.mp h with ⟨q, hq, hqk⟩
        rcases List.mem_cons.mp hq with h1 | h1
        · exact absurd (h1 ▸ hqk) hp
        · exact List.mem_map.mpr ⟨q, h1, hqk⟩
      have hlen : 1 ≤ t.length := by
        cases t with
        | nil => cases ht
        | cons a b => exact Nat.succ_le_succ (Nat.zero_le _)
      simp only [eraseKey, if_neg hp, List.length_cons, ih ht]
      omega

theorem findMinEntry_eq_or_mem (e : String × Nat) (l : List (String × Nat)) :
    findMinEntry e l = e ∨ findMinEntry e l ∈ l := by
  induction l generalizing e with
  | nil => exact Or.inl rfl
  | cons p t ih =>
    simp only [findMinEntry]
    rcases ih (if p.2 < e.2 then p else e) with h | h
    · rw [h]
      by_cases hc : p.2 < e.2
      · simp only [if_pos hc]
        exact Or.inr (List.mem_cons_self p t)
      · simp only [if_neg hc]
        exact Or.inl trivial
    · exact Or.inr (List.mem_cons_of_mem p h)


theorem findMinEntry_le (e : String × Nat) (l : List (String × Nat)) :
    ∀ p ∈ e :: l, (findMinEntry e l).2 ≤ p.2 := by
  induction l generalizing e with
  | nil =>
    intro p hp
    rcases List.mem_cons.mp hp with h | h
    · subst h; exact Nat.le_refl _
    · cases h
  | cons q t ih =>
    intro p hp
    have hbase : (if q.2 < e.2 then q else e).2 ≤ e.2 ∧ (if q.2 < e.2 then q else e).2 ≤ q.2 := by
      by_cases hc : q.2 < e.2
      · simp only [if_pos hc]
        exact ⟨Nat.le_of_lt hc, Nat.le_refl _⟩
      · simp only [if_neg hc]
        exact ⟨Nat.le_refl _, Nat.le_of_not_lt hc⟩
    have hhead := ih (if q.2 < e.2 then q else e) _ (List.mem_cons_self _ t)
    rcases List.mem_cons.mp hp with h | h
    · subst h
      exact Nat.le_trans hhead hbase.1
    · rcases List.mem_cons.mp h with h1 | h1
      · subst h1
        exact Nat.le_trans hhead hbase.2
      · exact ih _ p (List.mem_cons_of_mem _ h1)

theorem findMinEntry_key_mem (e : String × Nat) (l : List (String × Nat)) :
    (findMinEntry e l).1 ∈ (e :: l).map Prod.fst := by
  rcases findMinEntry_eq_or_mem e l with h | h
  · rw [h]
    exact List.mem_map_of_mem Prod.fst (List.mem_cons_self e l)
  · exact List.mem_map_of_mem Prod.fst (List.mem_cons_of_mem e h)

theorem key_unique {l : List (String × Nat)} (h : (l.map Prod.fst).Nodup)
    {p q : String × Nat} (hp : p ∈ l) (hq : q ∈ l) (hk : p.1 = q.1) : p = q := by
  induction l with
  | nil => cases hp
  | cons a t ih =>
    rw [List.map_cons, List.nodup_cons] at h
    rcases List.mem_cons.mp hp with h1 | h1 <;> rcases List.mem_cons.mp hq with h2 | h2
    · exact h1.trans h2.symm
    · subst h1
      exact absurd (hk ▸ List.mem_map_of_mem Prod.fst h2) h.1
    · subst h2
      exact absurd (hk ▸ List.mem_map_of_mem Prod.fst h1) h.1
    · exact ih h.2 h1 h2

theorem exists_other_entry {l : List (String × Nat)} (hlen : 2 ≤ l.length)
    (hnd : l.Nodup) (p : String × Nat) : ∃ q ∈ l, q ≠ p := by
  cases l with
  | nil => simp at hlen
  | cons a t =>
    cases t with
    | nil => simp at hlen
    | cons b u =>
      by_cases ha : a = p
      · refine ⟨b, List.mem_cons_of_mem a (List.mem_cons_self b u), ?_⟩
        intro hb
        rw [List.nodup_cons] at hnd
        exact hnd.1 (ha.trans hb.symm ▸ List.mem_cons_self b u)
      · exact ⟨a, List.mem_cons_self a (b :: u), ha⟩

theorem evictLoop_length_le (maxL : Nat) (fuel : Nat) (l : List (String × Nat))
    (h : l.length ≤ fuel) : ((evictLoop maxL fuel l).2).length ≤ maxL := by
  induction fuel generalizing l with
  | zero =>
    have : l = [] := List.eq_nil_of_length_eq_zero (Nat.le_zero.mp h)
    subst this
    exact Nat.zero_le maxL
  | succ fuel ih =>
    by_cases hl : l.length ≤ maxL
    · simp only [evictLoop, if_pos hl]
      exact hl
    · cases l with
      | nil => exact absurd (Nat.zero_le maxL) hl
      | cons e rest =>
        simp only [evictLoop, if_neg hl]
        apply ih
        rw [length_eraseKey_of_mem _ _ (findMinEntry_key_mem e rest)]
        simp only [List.length_cons] at h ⊢
        omega

theorem evictLoop_ev_nil (maxL : Nat) (fuel : Nat) (l : List (String × Nat))
    (h : l.length ≤ maxL) : (evictLoop maxL fuel l).1 = [] := by
  cases fuel with
  | zero => rfl
  | succ fuel => simp only [evictLoop, if_pos h]

theorem evictLoop_sublist (maxL : Nat) (fuel : Nat) (l : List (String × Nat)) :
    List.Sublist ((evictLoop maxL fuel l).2) l := by
  induction fuel generalizing l with
  | zero => exact List.Sublist.refl _
  | succ fuel ih =>
    by_cases hl : l.length ≤ maxL
    · simp only [evictLoop, if_pos hl]
      exact List.Sublist.refl _
    · cases l with
      | nil => exact absurd (Nat.zero_le maxL) hl
      | cons e rest =>
        simp only [evictLoop, if_neg hl]
        exact (ih _).trans (eraseKey_sublist _ _)

theorem evictLoop_keeps_max (maxL : Nat) (hmax : 1 ≤ maxL) (fuel : Nat) :
    ∀ (l : List (String × Nat)) (k : String) (v : Nat),
      (k, v) ∈ l → ((l.map Prod.fst).Nodup) →
      (∀ p ∈ l, p.1 ≠ k → p.2 < v) →
      (k, v) ∈ (evictLoop maxL fuel l).2 := by
  induction fuel with
  | zero => intro l k v hk _ _; exact hk
  | succ fuel ih =>
    intro l k v hk hnd hstrict
    by_cases hl : l.length ≤ maxL
    · simp only [evictLoop, if_pos hl]
      exact hk
    · cases l with
      | nil => exact absurd (Nat.zero_le maxL) hl
      | cons e rest =>
        simp only [evictLoop, if_neg hl]
        have hlen2 : 2 ≤ (e :: rest).length := by
          have := Nat.lt_of_not_le hl
          omega
        have hndl : (e :: rest).Nodup := hnd.of_map Prod.fst
        obtain ⟨q, hq, hqne⟩ := exists_other_entry hlen2 hndl (k, v)
        have hqk : q.1 ≠ k := by
          intro hqk
          exact hqne (key_unique hnd hq hk hqk)
        have hqlt : q.2 < v := hstrict q hq hqk
        have hmle : (findMinEntry e rest).2 ≤ q.2 := findMinEntry_le e rest q hq
        have hmlt : (findMinEntry e rest).2 < v := Nat.lt_of_le_of_lt hmle hqlt
        have hmmem : findMinEntry e rest ∈ e :: rest := by
          rcases findMinEntry_eq_or_mem e rest with h | h
          · rw [h]; exact List.mem_cons_self e rest
          · exact List.mem_cons_of_mem e h
        have hmk : (findMinEntry e rest).1 ≠ k := by
          intro hmk
          have := key_unique hnd hmmem hk hmk
          rw [this] at hmlt
          exact Nat.lt_irrefl v hmlt
        apply ih
        · exact mem_eraseKey_of_ne _ _ _ hk (fun hc => hmk hc.symm)
        · exact ((eraseKey_sublist _ _).map Prod.fst).nodup hnd
        · intro p hp hpk
          exact hstrict p (mem_eraseKey _ _ _ hp) hpk

theorem MInv_mkManager (maxL : Nat) : MInv (mkManager maxL) := by
  refine ⟨?_, ?_, ?_⟩ <;> simp [mkManager]

theorem touch_max_loaded (m : ModelManager) (n : String) :
    ((touch m n).2).max_loaded = m.max_loaded := rfl

theorem runTouches_max_loaded (names : List String) (m : ModelManager) :
    (runTouches m names).max_loaded = m.max_loaded := by
  induction names generalizing m with
  | nil => rfl
  | cons n rest ih => exact (ih _).trans (touch_max_loaded m n)

theorem keys_dictInsert_nodup (k : String) (v : Nat) (l : List (String × Nat))
    (h : (l.map Prod.fst).Nodup) : ((dictInsert k v l).map Prod.fst).Nodup := by
  rw [keys_dictInsert]
  by_cases hm : k ∈ l.map Prod.fst
  · simp only [if_pos hm]
    exact h
  · simp only [if_neg hm]
    exact List.Nodup.append h (List.nodup_singleton k)
      (List.disjoint_singleton.mpr hm)

theorem MInv_touch (m : ModelManager) (n : String) (h : MInv m) :
    MInv (touch m n).2 := by
  obtain ⟨hc, hnd, _⟩ := h
  refine ⟨?_, ?_, ?_⟩
  · intro p hp
    have hsub : p ∈ dictInsert n (m.counter + 1) m.loaded :=
      (evictLoop_sublist _ _ _).subset hp
    rcases mem_dictInsert p n (m.counter + 1) m.loaded hsub with h1 | h1
    · rw [h1]
      exact Nat.le_refl _
    · exact Nat.le_trans (hc p h1) (Nat.le_succ _)
  · exact ((evictLoop_sublist _ _ _).map Prod.fst).nodup
      (keys_dictInsert_nodup n (m.counter + 1) m.loaded hnd)
  · exact evictLoop_length_le _ _ _ (Nat.le_refl _)

theorem MInv_runTouches (names : List String) (m : ModelManager) (h : MInv m) :
    MInv (runTouches m names) := by
  induction names generalizing m with
  | nil => exact h
  | cons n rest ih => exact ih _ (MInv_touch m n h)

theorem touch_length_le (m : ModelManager) (n : String) :
    ((touch m n).2).loaded.length ≤ m.max_loaded :=
  evictLoop_length_le _ _ _ (Nat.le_refl _)

theorem touch_mem_self (m : ModelManager) (n : String) (hmax : 1 ≤ m.max_loaded)
    (h : MInv m) : n ∈ ((touch m n).2).loaded.map Prod.fst := by
  obtain ⟨hc, hnd, _⟩ := h
  have hmem : (n, m.counter + 1) ∈ ((touch m n).2).loaded := by
    apply evictLoop_keeps_max m.max_loaded hmax _ _ n (m.counter + 1)
    · exact mem_dictInsert_self n (m.counter + 1) m.loaded
    · exact keys_dictInsert_nodup n (m.counter + 1) m.loaded hnd
    · intro p hp hpk
      rcases mem_dictInsert p n (m.counter + 1) m.loaded hp with h1 | h1
      · exact absurd (congrArg Prod.fst h1) hpk
      · exact Nat.lt_succ_of_le (hc p h1)
  exact List.mem_map_of_mem Prod.fst hmem

theorem touch_ev_nil (m : ModelManager) (n : String)
    (h : (dictInsert n (m.counter + 1) m.loaded).length ≤ m.max_loaded) :
    (touch m n).1 = [] :=
  evictLoop_ev_nil _ _ _ h

/-- Claim C4: for every `ModelManager` with `max_loaded ≥ 1` and every
sequence of `touch` calls, at the end of each `touch` the resident set
obeys `|loaded()| ≤ max_loaded`, the name just touched is in `loaded()`
(never evicted by its own touch), and the returned eviction list is empty
whenever the bound was not exceeded (the touched name was already resident
or the resident set was below the bound). -/
theorem manager_touch_invariants (maxL : Nat) (hmax : 1 ≤ maxL)
    (names : List String) (nm : String) :
    (loadedList (touch (runTouches (mkManager maxL) names) nm).2).length ≤ maxL ∧
    nm ∈ loadedList (touch (runTouches (mkManager maxL) names) nm).2 ∧
    ((nm ∈ loadedList (runTouches (mkManager maxL) names) ∨
        (loadedList (runTouches (mkManager maxL) names)).length < maxL) →
      (touch (runTouches (mkManager maxL) names) nm).1 = []) := by
  have hInv : MInv (runTouches (mkManager maxL) names) :=
    MInv_runTouches names (mkManager maxL) (MInv_mkManager maxL)
  have hmaxeq : (runTouches (mkManager maxL) names).max_loaded = maxL :=
    runTouches_max_loaded names (mkManager maxL)
  refine ⟨?_, ?_, ?_⟩
  · rw [length_loadedList]
    exact Nat.le_trans (touch_length_le (runTouches (mkManager maxL) names) nm)
      (Nat.le_of_eq hmaxeq)
  · rw [mem_loadedList]
    exact touch_mem_self (runTouches (mkManager maxL) names) nm
      (by rw [hmaxeq]; exact hmax) hInv
  · intro hcase
    apply touch_ev_nil
    rw [length_dictInsert]
    by_cases hm : nm ∈ (runTouches (mkManager maxL) names).loaded.map Prod.fst
    · simp only [if_pos hm]
      exact hmaxeq ▸ hInv.2.2
    · simp only [if_neg hm]
      rcases hcase with hc | hc
      · exact absurd ((mem_loadedList _ _).mp hc) hm
      · rw [length_loadedList] at hc
        rw [hmaxeq]
        omega

/-- Witness for C4 at `max_loaded = 1`, prior sequence `["b"]`, touching
`"a"`: the theorem applied at concrete inputs. -/
theorem manager_touch_invariants_w :
    (loadedList (touch (runTouches (mkManager 1) ["b"]) "a").2).length ≤ 1 ∧
    "a" ∈ loadedList (touch (runTouches (mkManager 1) ["b"]) "a").2 ∧
    (("a" ∈ loadedList (runTouches (mkManager 1) ["b"]) ∨
        (loadedList (runTouches (mkManager 1) ["b"])).length < 1) →
      (touch (runTouches (mkManager 1) ["b"]) "a").1 = []) :=
  manager_touch_invariants 1 (by decide) ["b"] "a"

/-- Claim C5: with `max_loaded = 2`, the touch sequence
`a, b, c, b, d` returns the eviction lists `[], [], ["a"], [], ["c"]`:
`c` evicts `a`, the re-touch of `b` refreshes it and evicts nothing, and
`d` then evicts `c`. -/
theorem manager_lru_sequence :
    runEvictions (mkManager 2) ["a", "b", "c", "b", "d"] =
      [[], [], ["a"], [], ["c"]] := by
  decide

/-! ## Router lemmas -/

theorem regGet_name (reg : ModelRegistry) (hwf : RegWF reg) (n : String)
    (s : ModelSpec) (h : regGet reg n = some s) : s.name = n := by
  induction reg with
  | nil => cases h
  | cons p rest ih =>
    obtain ⟨k, sp⟩ := p
    by_cases hk : k = n
    · simp only [regGet, if_pos hk] at h
      have := hwf (k, sp) (List.mem_cons_self _ _)
      simp only at this
      rw [← Option.some_inj.mp h, this, hk]
    · simp only [regGet, if_neg hk] at h
      exact ih (fun q hq => hwf q (List.mem_cons_of_mem _ hq)) h

theorem primaryName_mem (pl th : Option String) (tx : String) :
    primaryName pl th tx = "qwen-2.5-3b-q4_k_m" ∨
    primaryName pl th tx = "sarvam-2b-q4_k_m" ∨
    primaryName pl th tx = "llama-3.2-1b-q4_k_m" := by
  unfold primaryName
  by_cases h1 : classify_task th tx = "code_logic"
  · simp [h1]
  · by_cases h2 : detect_indic pl tx
    · simp [h1, h2]
    · simp [h1, h2]

/-- Claim C1: whenever the three contract names are registered (in
particular the safety net `"llama-3.2-1b-q4_k_m"`) and the reported VRAM
is positive, the routed decision either fits the reported VRAM or is the
fixed safety-net model. -/
theorem router_vram_safety (reg : ModelRegistry) (hw : HardwareProfile)
    (pl th : Option String) (tx : String)
    (hwf : RegWF reg)
    (hq : regHas reg "qwen-2.5-3b-q4_k_m" = true)
    (hs : regHas reg "sarvam-2b-q4_k_m" = true)
    (hl : regHas reg "llama-3.2-1b-q4_k_m" = true)
    (hv : 0 < hw.vram_mb) :
    ∃ d, choose_model reg hw pl th tx = some d ∧
      (d.model.vram_mb ≤ hw.vram_mb ∨ d.model.name = "llama-3.2-1b-q4_k_m") := by
  have hp : (regGet reg (primaryName pl th tx)).isSome := by
    rcases primaryName_mem pl th tx with h | h | h <;> rw [h]
    · exact hq
    · exact hs
    · exact hl
  obtain ⟨sel0, hsel0⟩ := Option.isSome_iff_exists.mp hp
  obtain ⟨ls, hls⟩ := Option.isSome_iff_exists.mp hl
  unfold choose_model
  rw [hsel0]
  refine ⟨_, rfl, ?_⟩
  by_cases h2 : hw.vram_mb < (downgradePhase reg hw.vram_mb sel0).1.vram_mb
  · right
    show (safetyPhase reg hw.vram_mb (downgradePhase reg hw.vram_mb sel0)).1.name = _
    unfold safetyPhase
    rw [if_pos h2, hls]
    exact regGet_name reg hwf _ ls hls
  · left
    show (safetyPhase reg hw.vram_mb (downgradePhase reg hw.vram_mb sel0)).1.vram_mb ≤ _
    unfold safetyPhase
    rw [if_neg h2]
    exact Int.not_lt.mp h2

/-- Witness for C1: the sample registry, a 4096 MB GPU, an indic request. -/
theorem router_vram_safety_w :
    ∃ d, choose_model regSample ⟨true, 4096, 16000, "gpu"⟩ (some "hi") none "" = some d ∧
      (d.model.vram_mb ≤ (4096 : Int) ∨ d.model.name = "llama-3.2-1b-q4_k_m") :=
  router_vram_safety regSample ⟨true, 4096, 16000, "gpu"⟩ (some "hi") none ""
    (by decide) (by decide) (by decide) (by decide) (by decide)

/-- Claim C9: with `vram_mb = 0` the downgrade walk is skipped (Python
truthiness), but the safety net still fires for any primary model with
positive `vram_mb`: the decision is the registered
`"llama-3.2-1b-q4_k_m"` spec, `fallback` records the primary model's
name, and the GPU-layer estimate is `0`. -/
theorem router_zero_vram_safety_net (reg : ModelRegistry) (hw : HardwareProfile)
    (pl th : Option String) (tx : String)
    (hwf : RegWF reg)
    (hveq : hw.vram_mb = 0)
    (m : ModelSpec) (hm : regGet reg (primaryName pl th tx) = some m)
    (hmv : 0 < m.vram_mb)
    (ls : ModelSpec) (hls : regGet reg "llama-3.2-1b-q4_k_m" = some ls) :
    ∃ d, choose_model reg hw pl th tx = some d ∧
      d.model = ls ∧ d.model.name = "llama-3.2-1b-q4_k_m" ∧
      d.fallback = some m.name ∧ d.num_gpu_layers = 0 := by
  have hdg : downgradePhase reg hw.vram_mb m = (m, none) := by
    unfold downgradePhase
    rw [if_neg]
    intro hc
    exact hc.1 hveq
  have hsp : safetyPhase reg hw.vram_mb (m, none) = (ls, some m.name) := by
    unfold safetyPhase
    rw [if_pos (show hw.vram_mb < (m, (none : Option String)).1.vram_mb from hveq ▸ hmv), hls]
    rfl
  unfold choose_model
  rw [hm]
  simp only [hdg, hsp]
  refine ⟨_, rfl, rfl, regGet_name reg hwf _ ls hls, rfl, ?_⟩
  show estimate_gpu_layers hw.vram_mb ls.vram_mb = 0
  unfold estimate_gpu_layers
  rw [if_pos (Int.le_of_eq hveq)]

/-- Witness for C9: the sample registry, a CPU host reporting zero VRAM,
an indic request routed to the sarvam primary. -/
theorem router_zero_vram_safety_net_w :
    ∃ d, choose_model regSample ⟨false, 0, 8000, "cpu"⟩ (some "hi") none "" = some d ∧
      d.model = mkSpec "llama-3.2-1b-q4_k_m" 1500 [] ∧
      d.model.name = "llama-3.2-1b-q4_k_m" ∧
      d.fallback = some (mkSpec "sarvam-2b-q4_k_m" 2200 ["llama-3.2-1b-q4_k_m"]).name ∧
      d.num_gpu_layers = 0 :=
  router_zero_vram_safety_net regSample ⟨false, 0, 8000, "cpu"⟩ (some "hi") none ""
    (by decide) (by decide)
    (mkSpec "sarvam-2b-q4_k_m" 2200 ["llama-3.2-1b-q4_k_m"]) (by decide) (by decide)
    (mkSpec "llama-3.2-1b-q4_k_m" 1500 []) (by decide)

/-! ## Runner lemmas and claims -/

/-- Claim C8: with mock mode on, `stream_chat` emits exactly the first
`max_tokens` whitespace-delimited words of the prompt, each with one
trailing space, and the session succeeds; in particular
`"hello world foo"` with `max_tokens = 2` yields `["hello ", "world "]`. -/
theorem runner_mock_output :
    (∀ (parse : String → Option JValue) (binary : String)
        (pathExists : String → Bool) (child : ChildResult)
        (model_path prompt : String) (max_tokens : Nat),
      stream_chat parse binary true pathExists child model_path prompt max_tokens =
        (((pySplit prompt).take max_tokens).map (fun w => w ++ " "), StreamOutcome.ok)) ∧
    mockTokens "hello world foo" 2 = ["hello ", "world "] := by
  constructor
  · intro parse binary pathExists child model_path prompt max_tokens
    rfl
  · decide

/-- Claim C10: with mock mode on, `stream_chat` never runs the model-path
pre-flight: for every existence oracle (missing paths included) it
completes with the mock tokens and never raises `ModelNotFound`. -/
theorem runner_mock_no_preflight (parse : String → Option JValue) (binary : String)
    (pathExists : String → Bool) (child : ChildResult)
    (model_path prompt : String) (max_tokens : Nat) :
    stream_chat parse binary true pathExists child model_path prompt max_tokens =
      (mockTokens prompt max_tokens, StreamOutcome.ok) ∧
    ∀ msg, (stream_chat parse binary true pathExists child model_path prompt max_tokens).2 ≠
      StreamOutcome.modelNotFound msg :=
  ⟨rfl, fun _ h => StreamOutcome.noConfusion h⟩

theorem chain_eq_firstTruthy (a b c : Option JValue) :
    (match pyOrJ a (pyOrJ b c) with
     | some v => if jtruthy v then [pyStr v] else []
     | none => ([] : List String)) =
    (match ([a, b, c].filterMap id).find? jtruthy with
     | some v => [pyStr v]
     | none => []) := by
  cases a with
  | some va =>
    cases hta : jtruthy va with
    | true => simp [pyOrJ, hta, List.find?]
    | false =>
      cases b with
      | some vb =>
        cases htb : jtruthy vb with
        | true => simp [pyOrJ, hta, htb, List.find?]
        | false =>
          cases c with
          | some vc =>
            cases htc : jtruthy vc with
            | true => simp [pyOrJ, hta, htb, htc, List.find?]
            | false => simp [pyOrJ, hta, htb, htc, List.find?]
          | none => simp [pyOrJ, hta, htb, List.find?]
      | none =>
        cases c with
        | some vc =>
          cases htc : jtruthy vc with
          | true => simp [pyOrJ, hta, htc, List.find?]
          | false => simp [pyOrJ, hta, htc, List.find?]
        | none => simp [pyOrJ, hta, List.find?]
  | none =>
    cases b with
    | some vb =>
      cases htb : jtruthy vb with
      | true => simp [pyOrJ, htb, List.find?]
      | false =>
        cases c with
        | some vc =>
          cases htc : jtruthy vc with
          | true => simp [pyOrJ, htb, htc, List.find?]
          | false => simp [pyOrJ, htb, htc, List.find?]
        | none => simp [pyOrJ, htb, List.find?]
    | none =>
      cases c with
      | some vc =>
        cases htc : jtruthy vc with
        | true => simp [pyOrJ, htc, List.find?]
        | false => simp [pyOrJ, htc, List.find?]
      | none => simp [pyOrJ, List.find?]

/-- Claim C3: per stdout line of the child — an (after stripping) empty
line emits nothing; a line starting with `data:` has that prefix removed
and the remainder trimmed; if the remainder parses as a JSON object, the
first non-empty of `token`, `content`, `text` is emitted coerced to
string (nothing when none is non-empty); if JSON parsing fails, the raw
stripped line is emitted verbatim. -/
theorem runner_stdout_line_parsing (parse : String → Option JValue) (raw : String) :
    (pyStrip raw = "" → processLine parse raw = some []) ∧
    (pyStrip raw ≠ "" →
      (parse (if strStarts (pyStrip raw) "data:" then pyStrip (strDrop (pyStrip raw) 5)
              else pyStrip raw) = none →
        processLine parse raw =
          some [if strStarts (pyStrip raw) "data:" then pyStrip (strDrop (pyStrip raw) 5)
                else pyStrip raw]) ∧
      (∀ fields,
        parse (if strStarts (pyStrip raw) "data:" then pyStrip (strDrop (pyStrip raw) 5)
               else pyStrip raw) = some (JValue.jobj fields) →
        processLine parse raw =
          some (match firstTruthyField fields with
                | some v => [pyStr v]
                | none => []))) := by
  constructor
  · intro h
    unfold processLine
    rw [if_pos h]
  · intro h
    constructor
    · intro hp
      unfold processLine
      rw [if_neg h]
      simp only [hp]
    · intro fields hp
      unfold processLine
      rw [if_neg h]
      simp only [hp]
      have := chain_eq_firstTruthy (jget fields "token") (jget fields "content")
        (jget fields "text")
      unfold firstTruthyField at this ⊢
      simp only [List.filterMap] at this ⊢
      rw [this]

/-- Witness for C3: a non-JSON `data:` line is emitted verbatim after
prefix stripping and trimming. -/
theorem runner_stdout_line_parsing_w :
    processLine jparse0 "data: xyz" = some ["xyz"] :=
  (((runner_stdout_line_parsing jparse0 "data: xyz").2 (by decide)).1 rfl).trans (by decide)

theorem str_append_assoc (a b c : String) : (a ++ b) ++ c = a ++ (b ++ c) := by
  cases a; cases b; cases c
  exact congrArg String.mk (List.append_assoc _ _ _)

theorem strTakeRight_length_le (s : String) (n : Nat) :
    (strTakeRight s n).data.length ≤ n := by
  unfold strTakeRight
  simp only [List.length_drop]
  omega

theorem strTakeRight_length_eq (s : String) (n : Nat) (h : n ≤ s.data.length) :
    (strTakeRight s n).data.length = n := by
  unfold strTakeRight
  simp only [List.length_drop]
  omega

theorem strTakeRight_suffix (s : String) (n : Nat) :
    List.IsSuffix (strTakeRight s n).data s.data := by
  unfold strTakeRight
  exact List.drop_suffix _ _

theorem stderrTail_length_le (st : String) : (stderrTail st).data.length ≤ 1200 := by
  unfold stderrTail
  split
  · exact strTakeRight_length_le _ _
  · omega

theorem stderrTail_suffix (st : String) :
    List.IsSuffix (stderrTail st).data (pyStrip st).data := by
  unfold stderrTail
  split
  · exact strTakeRight_suffix _ _
  · exact List.suffix_refl _

theorem stderrTail_ne_empty (st : String) (h : pyStrip st ≠ "") :
    stderrTail st ≠ "" := by
  unfold stderrTail
  split
  · next hl =>
    intro heq
    have hlen := congrArg (fun t => t.data.length) heq
    simp only at hlen
    rw [strTakeRight_length_eq (pyStrip st) 1200 (Nat.le_of_lt hl)] at hlen
    simp at hlen
  · exact h

theorem strInfix_concat (pre x post : String) : strInfix x (pre ++ (x ++ post)) := by
  unfold strInfix
  rw [str_data_append, str_data_append]
  exact ⟨pre.data, post.data, List.append_assoc _ _ _⟩

theorem strInfix_of_pre (x post : String) : strInfix x (x ++ post) := by
  unfold strInfix
  rw [str_data_append]
  exact ⟨[], post.data, by simp⟩

theorem strInfix_refl (x : String) : strInfix x x :=
  ⟨[], [], by simp⟩

theorem strInfix_append_left (pre : String) {x s : String} (h : strInfix x s) :
    strInfix x (pre ++ s) := by
  unfold strInfix at h ⊢
  rw [str_data_append]
  obtain ⟨u, v, huv⟩ := h
  exact ⟨pre.data ++ u, v, by rw [← huv]; simp [List.append_assoc]⟩

theorem str_lit_split (a b c : String) (h : a = b ++ c) (x : String) :
    a ++ x = b ++ (c ++ x) := by
  rw [h, str_append_assoc]

/-- Claim C2, amended: mock mode off, the model path passes pre-flight,
every stdout line is empty, non-JSON or a JSON object (otherwise the
generator dies with `AttributeError` instead), and the child exits
non-zero.  Then `stream_chat` fails with the `RuntimeError` message
carrying `binary=<configured>`, the model path, `exit_code=<code>`, and a
stderr tail of at most 1200 characters taken from the end of the
whitespace-stripped decoded stderr (the literal `<empty>` when that is
empty); already-emitted tokens are kept.  At exit code `17` with stderr
`"fatal error\n"` the message contains `exit_code=17` and `fatal error`. -/
theorem runner_failure_surfacing (parse : String → Option JValue) (binary : String)
    (pathExists : String → Bool) (child : ChildResult) (model_path prompt : String)
    (max_tokens : Nat)
    (hex : pathExists model_path = true)
    (hok : (collectTokens parse child.stdout_lines).2 = false)
    (hexit : child.exit_code ≠ 0) :
    stream_chat parse binary false pathExists child model_path prompt max_tokens =
      ((collectTokens parse child.stdout_lines).1,
        StreamOutcome.runtimeFailure (failMsg binary model_path child.exit_code child.stderr)) ∧
    strInfix ("binary=" ++ binary) (failMsg binary model_path child.exit_code child.stderr) ∧
    strInfix model_path (failMsg binary model_path child.exit_code child.stderr) ∧
    strInfix ("exit_code=" ++ intRepr child.exit_code)
      (failMsg binary model_path child.exit_code child.stderr) ∧
    (stderrTail child.stderr).data.length ≤ 1200 ∧
    List.IsSuffix (stderrTail child.stderr).data (pyStrip child.stderr).data ∧
    (pyStrip child.stderr = "" →
      strInfix "<empty>" (failMsg binary model_path child.exit_code child.stderr)) ∧
    (pyStrip child.stderr ≠ "" →
      strInfix (stderrTail child.stderr)
        (failMsg binary model_path child.exit_code child.stderr)) ∧
    (child.exit_code = 17 → child.stderr = "fatal error\n" →
      strInfix "exit_code=17" (failMsg binary model_path child.exit_code child.stderr) ∧
      strInfix "fatal error" (failMsg binary model_path child.exit_code child.stderr)) := by
  have hc4 : strInfix ("exit_code=" ++ intRepr child.exit_code)
      (failMsg binary model_path child.exit_code child.stderr) := by
    unfold failMsg
    simp only [str_append_assoc]
    apply strInfix_append_left
    apply strInfix_append_left
    apply strInfix_append_left
    apply strInfix_append_left
    rw [str_lit_split ", exit_code=" ", " "exit_code=" (by decide)]
    apply strInfix_append_left
    rw [← str_append_assoc "exit_code=" (intRepr child.exit_code)]
    exact strInfix_of_pre _ _
  have hc6 : pyStrip child.stderr ≠ "" →
      strInfix (stderrTail child.stderr)
        (failMsg binary model_path child.exit_code child.stderr) := by
    intro hse
    have hT : pyOrStr (some (stderrTail child.stderr)) "<empty>" = stderrTail child.stderr := by
      simp [pyOrStr, stderrTail_ne_empty child.stderr hse]
    unfold failMsg
    rw [hT]
    simp only [str_append_assoc]
    apply strInfix_append_left
    apply strInfix_append_left
    apply strInfix_append_left
    apply strInfix_append_left
    apply strInfix_append_left
    apply strInfix_append_left
    apply strInfix_append_left
    exact strInfix_refl _
  refine ⟨?_, ?_, ?_, hc4, stderrTail_length_le _, stderrTail_suffix _, ?_, hc6, ?_⟩
  · unfold stream_chat
    rw [hex]
    simp only [Bool.false_eq_true, if_false, Bool.true_eq_false, hok, hexit, ite_false,
      ite_true, ne_eq, not_false_eq_true, if_true]
  · unfold failMsg
    simp only [str_append_assoc]
    rw [str_lit_split "llama-cli failed: binary=" "llama-cli failed: " "binary=" (by decide)]
    apply strInfix_append_left
    rw [← str_append_assoc "binary=" binary]
    exact strInfix_of_pre _ _
  · unfold failMsg
    simp only [str_append_assoc]
    apply strInfix_append_left
    apply strInfix_append_left
    apply strInfix_append_left
    exact strInfix_of_pre _ _
  · intro hse
    have hT : pyOrStr (some (stderrTail child.stderr)) "<empty>" = "<empty>" := by
      have htail : stderrTail child.stderr = "" := by
        unfold stderrTail
        rw [hse]
        simp
      simp [pyOrStr, htail]
    unfold failMsg
    rw [hT]
    simp only [str_append_assoc]
    apply strInfix_append_left
    apply strInfix_append_left
    apply strInfix_append_left
    apply strInfix_append_left
    apply strInfix_append_left
    apply strInfix_append_left
    apply strInfix_append_left
    exact strInfix_refl _
  · intro h17 hst
    constructor
    · rw [show ("exit_code=17" : String) = "exit_code=" ++ intRepr child.exit_code from by
        rw [h17]; decide]
      exact hc4
    · have hne : pyStrip child.stderr ≠ "" := by
        rw [hst]; decide
      have htl : stderrTail child.stderr = "fatal error" := by
        rw [hst]; decide
      have := hc6 hne
      rw [htl] at this
      exact this

/-- Witness for the amended C2 at a concrete failing session: binary
`llama-cli`, existing path `m.gguf`, no stdout, stderr
`"fatal error\n"`, exit code 17. -/
theorem runner_failure_surfacing_w :
    stream_chat jparse0 "llama-cli" false (fun _ => true)
        ⟨[], "fatal error\n", 17⟩ "m.gguf" "p" 16 =
      ((collectTokens jparse0 ([] : List String)).1,
        StreamOutcome.runtimeFailure (failMsg "llama-cli" "m.gguf" 17 "fatal error\n")) ∧
    strInfix ("binary=" ++ "llama-cli") (failMsg "llama-cli" "m.gguf" 17 "fatal error\n") ∧
    strInfix "m.gguf" (failMsg "llama-cli" "m.gguf" 17 "fatal error\n") ∧
    strInfix ("exit_code=" ++ intRepr 17) (failMsg "llama-cli" "m.gguf" 17 "fatal error\n") ∧
    (stderrTail "fatal error\n").data.length ≤ 1200 ∧
    List.IsSuffix (stderrTail "fatal error\n").data (pyStrip "fatal error\n").data ∧
    (pyStrip "fatal error\n" = "" →
      strInfix "<empty>" (failMsg "llama-cli" "m.gguf" 17 "fatal error\n")) ∧
    (pyStrip "fatal error\n" ≠ "" →
      strInfix (stderrTail "fatal error\n") (failMsg "llama-cli" "m.gguf" 17 "fatal error\n")) ∧
    ((17 : Int) = 17 → "fatal error\n" = "fatal error\n" →
      strInfix "exit_code=17" (failMsg "llama-cli" "m.gguf" 17 "fatal error\n") ∧
      strInfix "fatal error" (failMsg "llama-cli" "m.gguf" 17 "fatal error\n")) :=
  runner_failure_surfacing jparse0 "llama-cli" (fun _ => true)
    ⟨[], "fatal error\n", 17⟩ "m.gguf" "p" 16 rfl rfl (by decide)

set_option maxRecDepth 10000 in
/-- Counterexample to C2 as stated.  With stderr equal to 401 copies of
`ह` (3 UTF-8 bytes each), the tail the failure message embeds is the whole
stripped stderr — 401 characters but 1203 bytes, exceeding the claimed
1200-byte bound (`len(str)` in the source counts characters, not bytes).
Further, for stderr `"x\n"` the embedded tail `"x"` is not a suffix of
the collected stderr (stripping happens first), and a session whose
stdout line `"5"` parses as a non-object JSON value dies with
`AttributeError` rather than the claimed `RuntimeFailure`
(`json.loads("5")` yields the integer `5`, which has no `.get`). -/
theorem runner_stderr_tail_cx :
    (stream_chat jparse0 "llama-cli" false (fun _ => true) ⟨[], devStderr, 1⟩ "m.gguf" "p" 16).2 =
      StreamOutcome.runtimeFailure (failMsg "llama-cli" "m.gguf" 1 devStderr) ∧
    stderrTail devStderr = devStderr ∧
    1200 < (stderrTail devStderr).utf8ByteSize ∧
    ¬ List.IsSuffix (stderrTail "x\n").data ("x\n" : String).data ∧
    (stream_chat jparseNum "llama-cli" false (fun _ => true) ⟨["5"], "", 17⟩ "m.gguf" "p" 16).2 =
      StreamOutcome.attrError := by
  refine ⟨rfl, by decide, by decide, by decide, rfl⟩

/-! ## Chat metadata envelope lemmas -/

theorem hexDigit_ne_nl (n : Nat) : hexDigit n ≠ '\n' := by
  rcases n with _|_|_|_|_|_|_|_|_|_|_|_|_|_|_|_|n
  all_goals try decide
  show ('f' : Char) ≠ '\n'
  decide

theorem digitChar10_ne_nl (n : Nat) : digitChar10 n ≠ '\n' := by
  rcases n with _|_|_|_|_|_|_|_|_|n
  all_goals try decide
  show ('9' : Char) ≠ '\n'
  decide

theorem uEscape_no_nl (n : Nat) : '\n' ∉ uEscape n := by
  unfold uEscape hex4
  intro h
  rcases List.mem_cons.mp h with h1 | h1
  · cases h1
  rcases List.mem_cons.mp h1 with h2 | h2
  · cases h2
  rcases List.mem_cons.mp h2 with h3 | h3
  · exact hexDigit_ne_nl _ h3.symm
  rcases List.mem_cons.mp h3 with h4 | h4
  · exact hexDigit_ne_nl _ h4.symm
  rcases List.mem_cons.mp h4 with h5 | h5
  · exact hexDigit_ne_nl _ h5.symm
  rcases List.mem_cons.mp h5 with h6 | h6
  · exact hexDigit_ne_nl _ h6.symm
  cases h6

theorem jsonEscapeChar_no_nl (c : Char) : '\n' ∉ jsonEscapeChar c := by
  unfold jsonEscapeChar
  split_ifs with h1 h2 h3 h4 h5 h6 h7 h8 h9
  · decide
  · decide
  · decide
  · decide
  · decide
  · decide
  · decide
  · intro h
    rcases List.mem_cons.mp h with hc | hc
    · exact h3 hc.symm
    · cases hc
  · exact uEscape_no_nl _
  · intro h
    rcases List.mem_append.mp h with hc | hc
    · exact uEscape_no_nl _ hc
    · exact uEscape_no_nl _ hc

theorem concatMap_no_nl (f : α → List Char) (l : List α)
    (h : ∀ a, '\n' ∉ f a) : '\n' ∉ concatMap f l := by
  induction l with
  | nil => intro hc; cases hc
  | cons a t ih =>
    intro hc
    rcases List.mem_append.mp hc with h1 | h1
    · exact h a h1
    · exact ih h1

theorem no_nl_append (a b : String) (ha : '\n' ∉ a.data) (hb : '\n' ∉ b.data) :
    '\n' ∉ (a ++ b).data := by
  rw [str_data_append]
  intro h
  rcases List.mem_append.mp h with h1 | h1
  · exact ha h1
  · exact hb h1

theorem jstrDump_no_nl (s : String) : '\n' ∉ (jstrDump s).data := by
  unfold jstrDump
  apply no_nl_append
  apply no_nl_append
  · decide
  · exact concatMap_no_nl jsonEscapeChar s.data jsonEscapeChar_no_nl
  · decide

theorem natDigitsAux_no_nl (fuel n : Nat) : '\n' ∉ natDigitsAux fuel n := by
  induction fuel generalizing n with
  | zero => intro h; cases h
  | succ fuel ih =>
    unfold natDigitsAux
    split
    · intro h
      rcases List.mem_cons.mp h with h1 | h1
      · exact digitChar10_ne_nl _ h1.symm
      · cases h1
    · intro h
      rcases List.mem_append.mp h with h1 | h1
      · exact ih _ h1
      · rcases List.mem_cons.mp h1 with h2 | h2
        · exact digitChar10_ne_nl _ h2.symm
        · cases h2

theorem natRepr_no_nl (n : Nat) : '\n' ∉ (natRepr n).data :=
  natDigitsAux_no_nl (n + 1) n

theorem intRepr_no_nl (n : Int) : '\n' ∉ (intRepr n).data := by
  unfold intRepr
  split
  · exact no_nl_append "-" (natRepr n.natAbs) (by decide) (natRepr_no_nl _)
  · exact natRepr_no_nl _

theorem jstrListDump_no_nl (xs : List String) : '\n' ∉ (jstrListDump xs).data := by
  induction xs with
  | nil => intro h; cases h
  | cons s rest ih =>
    cases rest with
    | nil => exact jstrDump_no_nl s
    | cons t u =>
      show '\n' ∉ (jstrDump s ++ ", " ++ jstrListDump (t :: u)).data
      apply no_nl_append
      apply no_nl_append
      · exact jstrDump_no_nl s
      · decide
      · exact ih

theorem jarrDump_no_nl (xs : List String) : '\n' ∉ (jarrDump xs).data := by
  unfold jarrDump
  apply no_nl_append
  apply no_nl_append
  · decide
  · exact jstrListDump_no_nl xs
  · decide

theorem metadataLine_no_nl (model : String) (vram_used : Int) (fallback : String)
    (evicted : List String) (reason : String) :
    '\n' ∉ (metadataLine model vram_used fallback evicted reason).data := by
  unfold metadataLine
  apply no_nl_append
  apply no_nl_append
  apply no_nl_append
  apply no_nl_append
  apply no_nl_append
  apply no_nl_append
  apply no_nl_append
  apply no_nl_append
  apply no_nl_append
  apply no_nl_append
  · decide
  · exact jstrDump_no_nl model
  · decide
  · exact intRepr_no_nl vram_used
  · decide
  · exact jstrDump_no_nl fallback
  · decide
  · exact jarrDump_no_nl evicted
  · decide
  · exact jstrDump_no_nl reason
  · decide

theorem strStarts_of_prefix_append (pre pat rest : String)
    (h : List.IsPrefix pat.data pre.data) :
    strStarts (pre ++ rest) pat = true := by
  unfold strStarts
  rw [List.isPrefixOf_iff_prefix, str_data_append]
  exact h.trans (List.prefix_append _ _)

/-- Claim C6: the `/v1/chat` body emits, first, exactly one
newline-terminated line — the `json.dumps` serialization of an object
with the single key `metadata` whose value carries the keys `model`,
`vram_used`, `fallback`, `evicted` and `reason` — and no token characters
precede that newline (the serialized line itself contains no newline, and
this holds for every runner token list and outcome, including sessions
that fail before the first token). -/
theorem chat_metadata_first (decision : RouteDecision) (evicted : List String)
    (runner : List String × StreamOutcome) :
    (chatBody decision evicted runner).1.head? =
      some (metadataLine decision.model.name decision.estimated_vram_mb
        (pyOrStr decision.fallback "") evicted decision.reason ++ "\n") ∧
    '\n' ∉ (metadataLine decision.model.name decision.estimated_vram_mb
        (pyOrStr decision.fallback "") evicted decision.reason).data ∧
    strStarts (metadataLine decision.model.name decision.estimated_vram_mb
        (pyOrStr decision.fallback "") evicted decision.reason)
      "\x7b\"metadata\": \x7b" = true ∧
    strInfix "\"model\": " (metadataLine decision.model.name decision.estimated_vram_mb
        (pyOrStr decision.fallback "") evicted decision.reason) ∧
    strInfix "\"vram_used\": " (metadataLine decision.model.name decision.estimated_vram_mb
        (pyOrStr decision.fallback "") evicted decision.reason) ∧
    strInfix "\"fallback\": " (metadataLine decision.model.name decision.estimated_vram_mb
        (pyOrStr decision.fallback "") evicted decision.reason) ∧
    strInfix "\"evicted\": " (metadataLine decision.model.name decision.estimated_vram_mb
        (pyOrStr decision.fallback "") evicted decision.reason) ∧
    strInfix "\"reason\": " (metadataLine decision.model.name decision.estimated_vram_mb
        (pyOrStr decision.fallback "") evicted decision.reason) ∧
    concatStrs (chatBody decision evicted runner).1 =
      metadataLine decision.model.name decision.estimated_vram_mb
        (pyOrStr decision.fallback "") evicted decision.reason ++
      ("\n" ++ concatStrs runner.1) := by
  refine ⟨rfl, metadataLine_no_nl _ _ _ _ _, ?_, ?_, ?_, ?_, ?_, ?_, ?_⟩
  · unfold metadataLine
    simp only [str_append_assoc]
    exact strStarts_of_prefix_append _ _ _ (by decide)
  · unfold metadataLine
    simp only [str_append_assoc]
    rw [str_lit_split "\x7b\"metadata\": \x7b\"model\": " "\x7b\"metadata\": \x7b"
      "\"model\": " (by decide)]
    apply strInfix_append_left
    exact strInfix_of_pre _ _
  · unfold metadataLine
    simp only [str_append_assoc]
    apply strInfix_append_left
    apply strInfix_append_left
    rw [str_lit_split ", \"vram_used\": " ", " "\"vram_used\": " (by decide)]
    apply strInfix_append_left
    exact strInfix_of_pre _ _
  · unfold metadataLine
    simp only [str_append_assoc]
    apply strInfix_append_left
    apply strInfix_append_left
    apply strInfix_append_left
    apply strInfix_append_left
    rw [str_lit_split ", \"fallback\": " ", " "\"fallback\": " (by decide)]
    apply strInfix_append_left
    exact strInfix_of_pre _ _
  · unfold metadataLine
    simp only [str_append_assoc]
    apply strInfix_append_left
    apply strInfix_append_left
    apply strInfix_append_left
    apply strInfix_append_left
    apply strInfix_append_left
    apply strInfix_append_left
    rw [str_lit_split ", \"evicted\": " ", " "\"evicted\": " (by decide)]
    apply strInfix_append_left
    exact strInfix_of_pre _ _
  · unfold metadataLine
    simp only [str_append_assoc]
    apply strInfix_append_left
    apply strInfix_append_left
    apply strInfix_append_left
    apply strInfix_append_left
    apply strInfix_append_left
    apply strInfix_append_left
    apply strInfix_append_left
    apply strInfix_append_left
    rw [str_lit_split ", \"reason\": " ", " "\"reason\": " (by decide)]
    apply strInfix_append_left
    exact strInfix_of_pre _ _
  · show (metadataLine _ _ _ _ _ ++ "\n") ++ concatStrs runner.1 = _
    rw [str_append_assoc]

/-! ## Benchmark lemmas and claims -/

theorem mkRat_19_20_nonneg : (0 : ℚ) ≤ mkRat 19 20 := by
  rw [Rat.mkRat_eq_divInt, Rat.divInt_eq_div]
  positivity

/-- Claim C7: for a non-empty duration list, `_percentile` at `0.95`
returns the sorted element at index `⌊0.95 · n⌋` clamped into `[0, n-1]`
(the source's `int()` truncation coincides with the floor on this
non-negative operand); in particular, for durations
`[0.1, 0.2, 0.3, 0.4, 0.5]` the benchmark computes `latency_p50 = 0.3`
and `latency_p95 = 0.5` (through the 4-decimal rounding of
`run_benchmark`, which leaves these values unchanged). -/
theorem bench_percentiles :
    (∀ l : List ℚ, l ≠ [] →
      percentile l (mkRat 19 20) =
        (sortQ l).getD (Int.toNat (min (max ⌊(l.length : ℚ) * mkRat 19 20⌋ 0)
          ((l.length : Int) - 1))) 0) ∧
    latency_p50 [mkRat 1 10, mkRat 2 10, mkRat 3 10, mkRat 4 10, mkRat 5 10] = mkRat 3 10 ∧
    latency_p95 [mkRat 1 10, mkRat 2 10, mkRat 3 10, mkRat 4 10, mkRat 5 10] = mkRat 1 2 := by
  refine ⟨?_, ?_, ?_⟩
  · intro l hl
    have hq : (0 : ℚ) ≤ (l.length : ℚ) * mkRat 19 20 :=
      mul_nonneg (by positivity) mkRat_19_20_nonneg
    unfold percentile pyInt
    rw [if_neg hl, if_pos hq, ratFloor_eq]
  · unfold latency_p50
    have hm : medianQ [mkRat 1 10, mkRat 2 10, mkRat 3 10, mkRat 4 10, mkRat 5 10] =
        mkRat 3 10 := by decide
    rw [hm]
    unfold round4
    norm_num [Rat.mkRat_eq_divInt, Rat.divInt_eq_div, roundHalfEven, ratFloor_eq]
  · unfold latency_p95
    have hp : percentile [mkRat 1 10, mkRat 2 10, mkRat 3 10, mkRat 4 10, mkRat 5 10]
        (mkRat 19 20) = mkRat 1 2 := by
      have h : ((([mkRat 1 10, mkRat 2 10, mkRat 3 10, mkRat 4 10, mkRat 5 10].length : ℕ) : ℚ)
          * mkRat 19 20) = mkRat 19 4 := by
        rw [Rat.mkRat_eq_divInt, Rat.mkRat_eq_divInt, Rat.divInt_eq_div, Rat.divInt_eq_div]
        norm_num
      unfold percentile
      rw [if_neg (by decide), h]
      decide
    rw [hp]
    unfold round4
    norm_num [Rat.mkRat_eq_divInt, Rat.divInt_eq_div, roundHalfEven, ratFloor_eq]

/-- Witness for C7 applied to the singleton duration list. -/
theorem bench_percentiles_w :
    percentile [mkRat 1 10] (mkRat 19 20) =
      (sortQ [mkRat 1 10]).getD (Int.toNat (min (max ⌊(([mkRat 1 10] : List ℚ).length : ℚ)
        * mkRat 19 20⌋ 0) ((([mkRat 1 10] : List ℚ).length : Int) - 1))) 0 :=
  bench_percentiles.1 [mkRat 1 10] (by decide)
